import Mathlib

/-!
# Verification of the anchored dual-log credential controller

A shallow embedding of the repository's core: the KEL engine (`src/kerl/mod.rs`),
the TEL engine (`src/tel/mod.rs`), the issuer controller (`src/issuer/mod.rs`),
the draft dispatcher controller (`src/controller/mod.rs`) and the task worker
(`src/task/mod.rs`, `src/task_manager/mod.rs`).

Modelling conventions:

* Byte strings are `List Nat`.
* The self-addressing digest (`SelfAddressingPrefix` in the source, Blake3-256)
  is idealized as a collision-free injective hash: the model digest simply
  carries the hashed bytes, `derive` wraps them, and `verify_binding` compares
  them.  This is the standard idealization of a cryptographic hash for protocol
  verification: the claims under scrutiny concern the log and anchoring logic,
  not the hash function itself (which the spec places out of scope).
* Ed25519 signatures are idealized the same way: a signature records the
  signing key and the exact signed bytes, and verifies against precisely that
  key and those bytes (perfect unforgeability, no collisions).
* Rust `Result` becomes `Except Error`; a Rust panic (`unwrap` on `None`/`Err`)
  is modelled as the distinguished error `Error.panicked`, separating it from
  errors the source returns through `Result`.
* The source field named `prefix` is called `pre` throughout.
-/

/-- Raw byte strings (`Vec<u8>` / `&[u8]` in the source). -/
abbrev Bytes := List Nat

/-- Idealized self-addressing digest (`SelfAddressingPrefix` over Blake3-256):
a collision-free hash is modelled by letting the digest carry the hashed bytes. -/
structure SAPrefix where
  bytes : Bytes
  deriving DecidableEq

/-- `SelfAddressing::Blake3_256.derive(data)`. -/
def derive (b : Bytes) : SAPrefix := ⟨b⟩

/-- `SelfAddressingPrefix::verify_binding(data)`: does this digest bind the bytes? -/
def SAPrefix.verify_binding (d : SAPrefix) (b : Bytes) : Bool :=
  d.bytes == b

/-- `IdentifierPrefix`: `empty` is `IdentifierPrefix::default()` (the unset
sentinel), `basic` a public-key fingerprint, `selfAddr` a self-addressing
identifier. -/
inductive IdentifierPrefix where
  | empty : IdentifierPrefix
  | basic (key : Nat) : IdentifierPrefix
  | selfAddr (d : SAPrefix) : IdentifierPrefix
  deriving DecidableEq

/-- Public keys are idealized as naturals (`BasicPrefix` / `PublicKey`). -/
abbrev PubKey := Nat

/-- Idealized Ed25519 signature: records the signing key and the signed bytes
(`SelfSigningPrefix` payload). -/
structure Sig where
  key : PubKey
  msg : Bytes
  deriving DecidableEq

/-- `BasicPrefix::verify(message, signature)`: valid iff produced by the
matching key over exactly these bytes (ideal signature scheme). -/
def pkVerify (k : PubKey) (m : Bytes) (s : Sig) : Bool :=
  s.key == k && s.msg == m

/-- `KeyManager` (external, e.g. `CryptoBox`): a current and a pre-committed
next key pair. -/
structure KeyManager where
  cur : PubKey
  nxt : PubKey
  deriving DecidableEq

/-- `KeyManager::sign(bytes)`: signs with the current key. -/
def KeyManager.sign (km : KeyManager) (m : Bytes) : Sig := ⟨km.cur, m⟩

/-- `KeyManager::rotate()`: the committed next key becomes current, a fresh
next key is generated (freshness modelled by `nxt + 1`). -/
def KeyManager.rotate (km : KeyManager) : KeyManager := ⟨km.nxt, km.nxt + 1⟩

/-! ## Encodings (canonical serialization)

The source serializes events as canonical length-prefixed JSON; digests and
signatures are taken over the exact wire bytes.  The model uses a simple
structural encoding into `List Nat`; the claims only require that each event
form has one fixed encoding, and that the signed wrapper encodes differently
from the bare event message. -/

/-- Encoding of an identifier into bytes. -/
def encPre : IdentifierPrefix → Bytes
  | .empty => [0]
  | .basic k => [1, k]
  | .selfAddr d => 2 :: d.bytes.length :: d.bytes

/-- Encoding of a digest into bytes. -/
def encDig (d : SAPrefix) : Bytes := d.bytes.length :: d.bytes

/-- Encoding of a key list into bytes (used for next-key commitments). -/
def encKeys (ks : List PubKey) : Bytes := ks.length :: ks

/-- Encoding of a signature into bytes. -/
def encSig (s : Sig) : Bytes := s.key :: s.msg.length :: s.msg

/-! ## Seals and TEL events -/

/-- `EventSeal { prefix, sn, event_digest }`. -/
structure EventSeal where
  pre : IdentifierPrefix
  sn : Nat
  event_digest : SAPrefix
  deriving DecidableEq

/-- `Seal`: a digest seal or an event seal (the `data[]` entries of KEL
events). -/
inductive Seal where
  | digest (d : SAPrefix) : Seal
  | event (es : EventSeal) : Seal
  deriving DecidableEq

/-- `EventSourceSeal { sn, digest }`: a TEL event's pointer back at the KEL
interaction event anchoring it. -/
structure EventSourceSeal where
  sn : Nat
  digest : SAPrefix
  deriving DecidableEq

/-- TEL event payloads: management (`Vcp` inception, `Vrt` backer rotation)
and per-credential (`Iss` issuance, `Rev` revocation).  `vcp.noBackers`
models `Config::NoBackers`; `iss.ri`/`rev.ri` is the registry (management
TEL) identifier; `rev.priorDigest` chains to the issuance event. -/
inductive TelEventData where
  | vcp (issuer : IdentifierPrefix) (noBackers : Bool) (threshold : Nat)
      (backers : List IdentifierPrefix) : TelEventData
  | vrt (ba br : List IdentifierPrefix) (priorDigest : SAPrefix) : TelEventData
  | iss (ri : IdentifierPrefix) : TelEventData
  | rev (ri : IdentifierPrefix) (priorDigest : SAPrefix) : TelEventData
  deriving DecidableEq

/-- A TEL event (`teliox::event::Event`): `{prefix, sn, event_data}`. -/
structure TelEvent where
  pre : IdentifierPrefix
  sn : Nat
  data : TelEventData
  deriving DecidableEq

/-- Canonical serialization of a TEL event. -/
def serializeTel (e : TelEvent) : Bytes :=
  (match e.data with
    | .vcp issuer nb th bs =>
        [10, if nb then 1 else 0, th, bs.length] ++ encPre issuer
          ++ bs.foldr (fun b acc => encPre b ++ acc) []
    | .vrt ba br pd =>
        [11, ba.length, br.length] ++ encDig pd
          ++ ba.foldr (fun b acc => encPre b ++ acc) []
          ++ br.foldr (fun b acc => encPre b ++ acc) []
    | .iss ri => 12 :: encPre ri
    | .rev ri pd => 13 :: encPre ri ++ encDig pd)
  ++ encPre e.pre ++ [e.sn]

/-- `VerifiableEvent`: a TEL event bundled with its source seal; the form
written to the TEL store.  (The source field is named `seal`, a reserved word
here.) -/
structure VerifiableEvent where
  event : TelEvent
  sourceSeal : EventSourceSeal
  deriving DecidableEq

/-- `TelState`: the folded per-credential state. -/
inductive TelState where
  | notIssued : TelState
  | issued (lastEventDigest : SAPrefix) : TelState
  | revoked : TelState
  deriving DecidableEq

/-! ## KEL events -/

/-- KEL event payloads (`EventData`): inception, rotation, interaction,
receipt.  Establishment events carry the signing keys, the next-key digest
commitment and the signing threshold; `data` is the seal vector read by
`check_seal`. -/
inductive KelEventData where
  | icp (keys : List PubKey) (nextDigest : SAPrefix) (sith : Nat)
      (data : List Seal) : KelEventData
  | rot (keys : List PubKey) (nextDigest : SAPrefix) (sith : Nat)
      (data : List Seal) : KelEventData
  | ixn (data : List Seal) : KelEventData
  | rct : KelEventData
  deriving DecidableEq

/-- A KEL event message (`EventMessage`): ordered record
`{prefix, sn, prior digest, event_data}`. -/
structure KelEvent where
  pre : IdentifierPrefix
  sn : Nat
  priorDigest : Option SAPrefix
  data : KelEventData
  deriving DecidableEq

/-- The seal vector of a KEL event, `none` for kinds carrying no data
(receipts): mirrors the `Icp/Rot/Ixn` match in `KERL::check_seal`. -/
def kelData : KelEvent → Option (List Seal)
  | ⟨_, _, _, .icp _ _ _ ds⟩ => some ds
  | ⟨_, _, _, .rot _ _ _ ds⟩ => some ds
  | ⟨_, _, _, .ixn ds⟩ => some ds
  | ⟨_, _, _, .rct⟩ => none

/-- Encoding of a seal into bytes. -/
def encSeal : Seal → Bytes
  | .digest d => 20 :: encDig d
  | .event es => 21 :: encPre es.pre ++ [es.sn] ++ encDig es.event_digest

/-- Canonical serialization of a KEL event message (the unsigned
`EventMessage` bytes: what `ixn.event_message.serialize()` returns). -/
def serializeKel (e : KelEvent) : Bytes :=
  (match e.data with
    | .icp ks nd sith ds =>
        [30, sith, ds.length] ++ encKeys ks ++ encDig nd
          ++ ds.foldr (fun s acc => encSeal s ++ acc) []
    | .rot ks nd sith ds =>
        [31, sith, ds.length] ++ encKeys ks ++ encDig nd
          ++ ds.foldr (fun s acc => encSeal s ++ acc) []
    | .ixn ds => [32, ds.length] ++ ds.foldr (fun s acc => encSeal s ++ acc) []
    | .rct => [33])
  ++ encPre e.pre ++ [e.sn]
  ++ (match e.priorDigest with | none => [0] | some d => 1 :: encDig d)

/-- A signed KEL event (`SignedEventMessage`). -/
structure SignedKelEvent where
  event_message : KelEvent
  sigs : List Sig
  deriving DecidableEq

/-- Serialization of the signed wrapper (what `ixn.serialize()` returns):
the event-message bytes followed by the attached signatures, hence different
bytes from `serializeKel ixn.event_message`. -/
def serializeSignedKel (se : SignedKelEvent) : Bytes :=
  serializeKel se.event_message ++ [99]
    ++ se.sigs.foldr (fun s acc => encSig s ++ acc) []

/-- The error type (`error.rs`), with `panicked` marking a Rust panic
(`unwrap` on `None`/`Err`) as distinct from any returned error. -/
inductive Error where
  | generic (msg : String) : Error
  | keri (msg : String) : Error
  | tel (msg : String) : Error
  | panicked (msg : String) : Error
  deriving DecidableEq

/-! ## KEL engine (`src/kerl/mod.rs` and the keri processor it drives)

The KEL store is a single append-only list of validated event messages for
the controller's own identifier.  The keri `EventProcessor` (an external
collaborator, specified at its interface in spec section 4.1) validates an
incoming signed event against the folded state and appends it. -/

/-- `IdentifierState`: folded projection of a prefix's KEL — current keys,
signing threshold, next-key commitment, sn, and the serialized bytes of the
last applied event (what seal digests are checked against). -/
structure IdentifierState where
  pre : IdentifierPrefix
  sn : Nat
  currentKeys : List PubKey
  sith : Nat
  nextDigest : SAPrefix
  last : Bytes
  deriving DecidableEq

/-- One step of the keri state fold: apply an already-validated event to the
(optional) identifier state. -/
def applyKel (s : Option IdentifierState) (e : KelEvent) : Option IdentifierState :=
  match s, e.data with
  | none, .icp ks nd sith _ => some ⟨e.pre, e.sn, ks, sith, nd, serializeKel e⟩
  | some st, .rot ks nd sith _ =>
      some { st with sn := e.sn, currentKeys := ks, sith := sith,
                     nextDigest := nd, last := serializeKel e }
  | some st, .ixn _ => some { st with sn := e.sn, last := serializeKel e }
  | some st, .rct => some st
  | _, _ => none

/-- `EventProcessor::compute_state` over the stored log. -/
def computeState (kel : List KelEvent) : Option IdentifierState :=
  kel.foldl applyKel none

/-- `EventProcessor::compute_state_at_sn(prefix, sn)`: replay the prefix's
log up to and including the event with the given sn. -/
def computeStateAtSn (kel : List KelEvent) (p : IdentifierPrefix) (sn : Nat) :
    Option IdentifierState :=
  ((kel.filter (fun e => e.pre == p)).takeWhile (fun e => decide (e.sn ≤ sn))).foldl
    applyKel none

/-- `KERL::get_event_at_sn(id, sn)`: the stored event of identifier `id` at
`sn`, if any. -/
def getEventAtSn (kel : List KelEvent) (id : IdentifierPrefix) (sn : Nat) :
    Option KelEvent :=
  kel.find? (fun e => e.pre == id && e.sn == sn)

/-- `KERL::get_state_for_seal(prefix, sn, digest)`: the identifier state as
of `sn`, provided the given digest binds the serialized last event. -/
def getStateForSeal (kel : List KelEvent) (p : IdentifierPrefix) (sn : Nat)
    (digest : SAPrefix) : Except Error (Option IdentifierState) :=
  match computeStateAtSn kel p sn with
  | some s =>
      if s.last |> digest.verify_binding then .ok (some s)
      else .error (.generic "Last event digests doesn't match")
  | none => .ok none

/-- `KERL::check_seal(sn, issuer_id, tel_ev)` transliterated from
`src/kerl/mod.rs` lines 272–295: load the KEL event of `issuer_id` at `sn`
(the source calls `Option::unwrap` on the lookup, so a missing event is a
panic), take its seal vector (`Err("Empty data")` for kinds without one),
and test whether some event seal matches the TEL event's prefix and sn and
binds its serialized bytes. -/
def KERL.check_seal (kel : List KelEvent) (sn : Nat) (issuer_id : IdentifierPrefix)
    (tel_ev : TelEvent) : Except Error Bool :=
  let data := serializeTel tel_ev
  match getEventAtSn kel issuer_id sn with
  | none => .error (.panicked "called Option::unwrap on a None value")
  | some e =>
      match kelData e with
      | none => .error (.generic "Empty data")
      | some seals =>
          .ok (seals.any (fun s =>
            match s with
            | .event es =>
                es.pre == tel_ev.pre && es.sn == tel_ev.sn
                  && es.event_digest.verify_binding data
            | _ => false))

/-- Validation performed by the keri processor before an event is persisted
(spec section 4.1: sn continuity, prior-digest chaining, next-key commitment
on rotations, attached signatures under the keys in force; receipts and
duplicate inceptions are rejected on this single-writer path). -/
def validateKel (kel : List KelEvent) (se : SignedKelEvent) : Bool :=
  let e := se.event_message
  let sigsOk := fun (ks : List PubKey) =>
    se.sigs.all (fun s => ks.any (fun k => pkVerify k (serializeKel e) s))
  match computeState kel with
  | none =>
      match e.data with
      | .icp ks _ _ _ => e.sn == 0 && e.priorDigest == none && sigsOk ks
      | _ => false
  | some st =>
      match e.data with
      | .icp _ _ _ _ => false
      | .rot ks _ _ _ =>
          e.sn == st.sn + 1
            && (match e.priorDigest with
                | some d => d.verify_binding st.last
                | none => false)
            && st.nextDigest.verify_binding (encKeys ks)
            && sigsOk ks
      | .ixn _ =>
          e.sn == st.sn + 1
            && (match e.priorDigest with
                | some d => d.verify_binding st.last
                | none => false)
            && sigsOk st.currentKeys
      | .rct => false

/-- `EventProcessor::process` on this controller's own log: validate the
signed event and append its event message; validation failure writes
nothing. -/
def processKel (kel : List KelEvent) (se : SignedKelEvent) :
    Except Error (List KelEvent) :=
  if validateKel kel se then .ok (kel ++ [se.event_message])
  else .error (.keri "event validation failed")

/-- Modelled from the spec: `event_generator::make_icp` (the file
`src/kerl/event_generator.rs` is declared by `src/kerl/mod.rs` but missing
from the sources).  Spec sections 3 and 4.1: the inception event carries the
current signing keys, the next-key digest commitment and the signing
threshold, at sn 0 with no prior digest; the identifier is a basic
public-key fingerprint. -/
def make_icp (km : KeyManager) : KelEvent :=
  { pre := .basic km.cur, sn := 0, priorDigest := none,
    data := .icp [km.cur] (derive (encKeys [km.nxt])) 1 [] }

/-- Modelled from the spec: `event_generator::make_rot` (missing file, spec
section 4.1): the rotation event carries the KeyManager's advanced current
key and fresh next-key commitment, `sn = state.sn + 1`, prior digest of the
last event. -/
def make_rot (km : KeyManager) (st : IdentifierState) : KelEvent :=
  { pre := st.pre, sn := st.sn + 1, priorDigest := some (derive st.last),
    data := .rot [km.cur] (derive (encKeys [km.nxt])) 1 [] }

/-- Modelled from the spec: `event_generator::make_ixn_with_seal` (missing
file, spec section 4.1): interaction event with `sn = state.sn + 1`, prior
digest of the last event, carrying the caller-supplied seal list. -/
def make_ixn_ev (seals : List Seal) (st : IdentifierState) : KelEvent :=
  { pre := st.pre, sn := st.sn + 1, priorDigest := some (derive st.last),
    data := .ixn seals }

/-- `KERL::incept(km)`: generate the inception event, sign it and process it
through the validation path; the controller's prefix becomes the icp's. -/
def KERL.incept (kel : List KelEvent) (km : KeyManager) :
    Except Error (SignedKelEvent × List KelEvent × IdentifierPrefix) := do
  let icp := make_icp km
  let sigged : SignedKelEvent := ⟨icp, [km.sign (serializeKel icp)]⟩
  let kel' ← processKel kel sigged
  pure (sigged, kel', icp.pre)

/-- `KERL::make_ixn_with_seal(seal_list, km)` from `src/kerl/mod.rs` lines
122–141: fold the state (`get_state()?.unwrap()` — a missing state is a
panic), build the interaction event, sign its serialization, process it. -/
def KERL.make_ixn_with_seal (kel : List KelEvent) (seals : List Seal)
    (km : KeyManager) : Except Error (SignedKelEvent × List KelEvent) := do
  let st ← match computeState kel with
    | some s => pure s
    | none => .error (.panicked "called Option::unwrap on a None value")
  let ev := make_ixn_ev seals st
  let ixn : SignedKelEvent := ⟨ev, [km.sign (serializeKel ev)]⟩
  let kel' ← processKel kel ixn
  pure (ixn, kel')

/-- `KERL::rotate(km)` from `src/kerl/mod.rs` lines 78–91: the KeyManager
has already advanced; generate, sign and process the rotation event (the
processor checks the commitment against the previous establishment event). -/
def KERL.rotate (kel : List KelEvent) (km : KeyManager) :
    Except Error (SignedKelEvent × List KelEvent) := do
  let st ← match computeState kel with
    | some s => pure s
    | none => .error (.panicked "called Option::unwrap on a None value")
  let ev := make_rot km st
  let rot : SignedKelEvent := ⟨ev, [km.sign (serializeKel ev)]⟩
  let kel' ← processKel kel rot
  pure (rot, kel')

/-! ## TEL engine (`src/tel/mod.rs` and the teliox processor it drives)

The TEL store is a single list of verifiable events; per-credential and
management sub-TELs are the sub-lists sharing one event prefix.  The teliox
`EventProcessor` (external, specified at its interface in spec section 4.2)
checks only TEL-local validity — sn continuity, chaining, state-transition
legality, management prefix bootstrapping — never the source seal. -/

/-- The TEL engine state: the one-shot management prefix and the event
store. -/
structure Tel where
  telPre : IdentifierPrefix
  db : List VerifiableEvent
  deriving DecidableEq

/-- The stored events of one sub-TEL (per-credential or management),
`EventProcessor::get_events` / `Tel::get_tel`. -/
def telEventsFor (t : Tel) (p : IdentifierPrefix) : List VerifiableEvent :=
  t.db.filter (fun ve => ve.event.pre == p)

/-- One step of the teliox per-credential state fold. -/
def applyVc (s : TelState) (e : TelEvent) : TelState :=
  match s, e.data with
  | .notIssued, .iss _ => .issued (derive (serializeTel e))
  | .issued _, .rev _ _ => .revoked
  | st, _ => st

/-- `Tel::get_vc_state(message_hash)`: fold the credential's sub-TEL. -/
def Tel.get_vc_state (t : Tel) (h : SAPrefix) : TelState :=
  ((telEventsFor t (.selfAddr h)).map (fun ve => ve.event)).foldl applyVc .notIssued

/-- `ManagerTelState`: folded management sub-TEL state. -/
structure ManagerTelState where
  pre : IdentifierPrefix
  issuer : IdentifierPrefix
  backers : List IdentifierPrefix
  threshold : Nat
  noBackers : Bool
  sn : Nat
  lastDigest : SAPrefix
  deriving DecidableEq

/-- One step of the teliox management state fold. -/
def applyMgmt (s : Option ManagerTelState) (e : TelEvent) : Option ManagerTelState :=
  match s, e.data with
  | none, .vcp issuer nb th bs =>
      some ⟨e.pre, issuer, bs, th, nb, e.sn, derive (serializeTel e)⟩
  | some st, .vrt ba br _ =>
      some { st with backers := (st.backers.filter (fun b => !(br.contains b))) ++ ba,
                     sn := e.sn, lastDigest := derive (serializeTel e) }
  | st, _ => st

/-- `Tel::get_management_tel_state()`: fold the management sub-TEL of the
bootstrapped prefix; an empty management TEL is an error (spec section 7,
`StateError`). -/
def Tel.get_management_tel_state (t : Tel) : Except Error ManagerTelState :=
  match ((telEventsFor t t.telPre).map (fun ve => ve.event)).foldl applyMgmt none with
  | some st => .ok st
  | none => .error (.tel "Empty management TEL")

/-- `Tel::get_issuer()`. -/
def Tel.get_issuer (t : Tel) : Except Error IdentifierPrefix := do
  pure (← t.get_management_tel_state).issuer

/-- Modelled from the spec at the teliox interface:
`tel::event_generator::make_inception_event` — the management inception
event, at sn 0, whose prefix is the self-addressing digest of its content. -/
def eg_make_inception_event (issuer : IdentifierPrefix) (noBackers : Bool)
    (backerThreshold : Nat) (backers : List IdentifierPrefix) : TelEvent :=
  let body : TelEventData := .vcp issuer noBackers backerThreshold backers
  { pre := .selfAddr (derive (serializeTel ⟨.empty, 0, body⟩)), sn := 0, data := body }

/-- `Tel::make_inception_event` (`src/tel/mod.rs` lines 41–57). -/
def Tel.make_inception_event (_t : Tel) (issuer : IdentifierPrefix)
    (noBackers : Bool) (backerThreshold : Nat) (backers : List IdentifierPrefix) :
    TelEvent :=
  eg_make_inception_event issuer noBackers backerThreshold backers

/-- `Tel::make_rotation_event(ba, br)` (`src/tel/mod.rs` lines 59–66, teliox
generator modelled from spec section 4.2): a backer rotation of the
management sub-TEL; `NoBackers` registries refuse it (`ImproperConfig`). -/
def Tel.make_rotation_event (t : Tel) (ba br : List IdentifierPrefix) :
    Except Error TelEvent := do
  let st ← t.get_management_tel_state
  if st.noBackers then .error (.tel "ImproperConfig")
  else pure { pre := st.pre, sn := st.sn + 1, data := .vrt ba br st.lastDigest }

/-- `Tel::make_issuance_event(message)` (`src/tel/mod.rs` lines 68–78): the
Iss event of the credential whose prefix is the message digest, at sn 0,
tagged with the registry identifier. -/
def Tel.make_issuance_event (t : Tel) (message : Bytes) : Except Error TelEvent := do
  let st ← t.get_management_tel_state
  pure { pre := .selfAddr (derive message), sn := 0, data := .iss st.pre }

/-- `Tel::make_revoke_event(message_hash)` (`src/tel/mod.rs` lines 80–95):
read the credential state; any state but `Issued(last)` is
`"Inproper vc state"`; otherwise the Rev event at sn 1 chains to `last`.
The function reads the store and builds an event; it writes nothing. -/
def Tel.make_revoke_event (t : Tel) (message_hash : SAPrefix) :
    Except Error TelEvent := do
  let last ← match t.get_vc_state message_hash with
    | .issued last => pure last
    | _ => .error (.generic "Inproper vc state")
  let st ← t.get_management_tel_state
  pure { pre := .selfAddr message_hash, sn := 1, data := .rev st.pre last }

/-- The teliox processor's TEL-local validation and append
(`EventProcessor::process`, spec section 4.2): management prefix
bootstrapping for Vcp, sn continuity and chaining for Vrt, the
NotIssued → Issued → Revoked state machine for Iss/Rev.  Source seals are
not checked here.  Accepting a first management event sets the engine's
one-shot `telPre`. -/
def Tel.process (t : Tel) (ve : VerifiableEvent) : Except Error Tel :=
  let accept : Tel := { telPre := if t.telPre == .empty then
                          (match ve.event.data with
                            | .vcp _ _ _ _ => ve.event.pre
                            | _ => t.telPre)
                          else t.telPre,
                        db := t.db ++ [ve] }
  match ve.event.data with
  | .vcp _ _ _ _ =>
      if ve.event.sn == 0 && (telEventsFor t ve.event.pre).isEmpty
          && (t.telPre == .empty || t.telPre == ve.event.pre) then
        .ok accept
      else .error (.tel "improper management inception")
  | .vrt _ _ pd =>
      if t.telPre == ve.event.pre then
        match t.get_management_tel_state with
        | .ok st =>
            if ve.event.sn == st.sn + 1 && pd == st.lastDigest then .ok accept
            else .error (.tel "out of order management event")
        | .error e => .error e
      else .error (.tel "unknown management prefix")
  | .iss _ =>
      match (((telEventsFor t ve.event.pre).map (fun v => v.event)).foldl
          applyVc .notIssued) with
      | .notIssued =>
          if ve.event.sn == 0 then .ok accept
          else .error (.tel "bad issuance sn")
      | _ => .error (.tel "AlreadyIssued")
  | .rev _ pd =>
      match (((telEventsFor t ve.event.pre).map (fun v => v.event)).foldl
          applyVc .notIssued) with
      | .issued last =>
          if ve.event.sn == 1 && pd == last then .ok accept
          else .error (.tel "out of order vc event")
      | _ => .error (.tel "improper vc state for revocation")

/-! ## Issuer controller (`src/issuer/mod.rs`)

`Controller<K>` holds the KeyManager, the KEL engine and the TEL engine.
Its KEL and Tel collaborators compile against a KERL/Tel revision whose file
is not in the sources (`check_seal` over serialized bytes,
`Tel::process(VerifiableEvent)`); those entry points are modelled from the
spec where marked. -/

/-- The issuer controller's state. -/
structure Controller where
  km : KeyManager
  kelPre : IdentifierPrefix
  kel : List KelEvent
  tel : Tel
  deriving DecidableEq

instance : Inhabited Controller :=
  ⟨⟨⟨0, 0⟩, .empty, [], ⟨.empty, []⟩⟩⟩

/-- Modelled from the spec: the `KERL::check_seal` revision the issuer
controller calls (`self.kerl.check_seal(source_seal.sn, event_prefix,
&serialized_event)` passes the TEL event's prefix and its serialized bytes;
the `src/kerl/mod.rs` revision in the sources takes the whole event
instead).  Spec section 4.1: load the KEL event at `sn`, read its `data[]`,
and assert that some `Seal::Event` in it matches the TEL event and binds the
serialized bytes; a missing event or a sealless event kind is an error. -/
def check_seal_bytes (kel : List KelEvent) (ownPre : IdentifierPrefix) (sn : Nat)
    (telPre : IdentifierPrefix) (serialized : Bytes) : Except Error Bool :=
  match getEventAtSn kel ownPre sn with
  | none => .error (.generic "Missing event")
  | some e =>
      match kelData e with
      | none => .error (.generic "Empty data")
      | some seals =>
          .ok (seals.any (fun s =>
            match s with
            | .event es => es.pre == telPre && es.event_digest.verify_binding serialized
            | _ => false))

/-- `Controller::incept_kel` (`src/issuer/mod.rs` lines 89–92). -/
def Controller.incept_kel (c : Controller) : Except Error Controller := do
  let (_, kel', p) ← KERL.incept c.kel c.km
  pure { c with kel := kel', kelPre := p }

/-- `Controller::incept_tel(backers, backer_threshold)` (`src/issuer/mod.rs`
lines 50–86): build the management inception for the KEL state's prefix,
anchor it through an interaction event carrying its seal, then process the
verifiable event whose source seal digests the *unsigned*
`ixn.event_message`. -/
def Controller.incept_tel (c : Controller) (backers : Option (List IdentifierPrefix))
    (backerThreshold : Nat) : Except Error Controller := do
  let (noBackers, b) := match backers with
    | some bs => (false, bs)
    | none => (true, [])
  let st ← match computeState c.kel with
    | some s => pure s
    | none => .error (.panicked "called Option::unwrap on a None value")
  let vcp := c.tel.make_inception_event st.pre noBackers backerThreshold b
  let vcpSeal := Seal.event ⟨vcp.pre, vcp.sn, derive (serializeTel vcp)⟩
  let (ixn, kel') ← KERL.make_ixn_with_seal c.kel [vcpSeal] c.km
  let srcSeal : EventSourceSeal :=
    ⟨ixn.event_message.sn, derive (serializeKel ixn.event_message)⟩
  let tel' ← c.tel.process ⟨vcp, srcSeal⟩
  pure { c with kel := kel', tel := tel' }

/-- `Controller::init` (`src/issuer/mod.rs` lines 35–46): fresh stores,
KEL inception, then anchored management-TEL inception. -/
def Controller.init (km : KeyManager) (backers : Option (List IdentifierPrefix))
    (backerThreshold : Nat) : Except Error Controller := do
  let c0 : Controller := { km := km, kelPre := .empty, kel := [], tel := ⟨.empty, []⟩ }
  let c1 ← c0.incept_kel
  c1.incept_tel backers backerThreshold

/-- `Controller::issue(message)` (`src/issuer/mod.rs` lines 124–143): build
the Iss event, anchor it through an interaction event, store the verifiable
event whose source seal digests the *unsigned* `ixn.event_message` (line
137), and return the KeyManager's signature over the raw message bytes. -/
def Controller.issue (c : Controller) (message : Bytes) :
    Except Error (Controller × Sig) := do
  let iss ← c.tel.make_issuance_event message
  let issSeal := Seal.event ⟨iss.pre, iss.sn, derive (serializeTel iss)⟩
  let (ixn, kel') ← KERL.make_ixn_with_seal c.kel [issSeal] c.km
  let srcSeal : EventSourceSeal :=
    ⟨ixn.event_message.sn, derive (serializeKel ixn.event_message)⟩
  let tel' ← c.tel.process ⟨iss, srcSeal⟩
  pure ({ c with kel := kel', tel := tel' }, c.km.sign message)

/-- `Controller::revoke(message)` (`src/issuer/mod.rs` lines 145–168): build
the Rev event for the message digest, anchor it, and store the verifiable
event — whose source seal digests the *signed* `ixn` (line 160:
`derive(&ixn.serialize()?)`), unlike `issue`. -/
def Controller.revoke (c : Controller) (message : Bytes) : Except Error Controller := do
  let message_id := derive message
  let rev ← c.tel.make_revoke_event message_id
  let revSeal := Seal.event ⟨rev.pre, rev.sn, derive (serializeTel rev)⟩
  let (ixn, kel') ← KERL.make_ixn_with_seal c.kel [revSeal] c.km
  let srcSeal : EventSourceSeal :=
    ⟨ixn.event_message.sn, derive (serializeSignedKel ixn)⟩
  let tel' ← c.tel.process ⟨rev, srcSeal⟩
  pure { c with kel := kel', tel := tel' }

/-- `Controller::update_backers(ba, br)` (`src/issuer/mod.rs` lines
96–122): anchored management rotation; like `revoke`, its source seal
digests the *signed* `ixn` (line 114). -/
def Controller.update_backers (c : Controller) (ba br : List IdentifierPrefix) :
    Except Error Controller := do
  let rcp ← c.tel.make_rotation_event ba br
  let rcpSeal := Seal.event ⟨rcp.pre, rcp.sn, derive (serializeTel rcp)⟩
  let (ixn, kel') ← KERL.make_ixn_with_seal c.kel [rcpSeal] c.km
  let srcSeal : EventSourceSeal :=
    ⟨ixn.event_message.sn, derive (serializeSignedKel ixn)⟩
  let tel' ← c.tel.process ⟨rcp, srcSeal⟩
  pure { c with kel := kel', tel := tel' }

/-- `Controller::rotate()` (`src/issuer/mod.rs` lines 170–174): advance the
KeyManager, then generate and process the KEL rotation event. -/
def Controller.rotate (c : Controller) : Except Error Controller := do
  let km' := c.km.rotate
  let (_, kel') ← KERL.rotate c.kel km'
  pure { c with km := km', kel := kel' }

/-- `Controller::get_vc_state(hash)` (`src/issuer/mod.rs` lines 177–179). -/
def Controller.get_vc_state (c : Controller) (h : SAPrefix) : TelState :=
  c.tel.get_vc_state h

/-- `Controller::get_pub_key(message_hash)` (`src/issuer/mod.rs` lines
187–224): take the last stored TEL event for the hash, check its source
seal against the issuer's KEL, then resolve the identifier state at the
seal's sn and return its current keys. -/
def Controller.get_pub_key (c : Controller) (message_hash : SAPrefix) :
    Except Error (List PubKey) := do
  let ve ← match (telEventsFor c.tel (.selfAddr message_hash)).getLast? with
    | some v => pure v
    | none => .error (.generic "No events in tel")
  let tel_event := ve.event
  let source_seal := ve.sourceSeal
  let serialized_event := serializeTel tel_event
  let sealOk ← check_seal_bytes c.kel c.kelPre source_seal.sn tel_event.pre
    serialized_event
  if sealOk then
    let issuer ← c.tel.get_issuer
    match getStateForSeal c.kel issuer source_seal.sn source_seal.digest with
    | .ok (some st) => pure st.currentKeys
    | .ok none => .error (.generic "No key data")
    | .error e => .error e
  else .error (.generic "improper seal")

/-- `Controller::verify(message, signature)` (`src/issuer/mod.rs` lines
227–240): errors while not issued or after revocation; in the issued state,
folds a conjunction of the one signature's validity over all resolved
keys, starting from `true`. -/
def Controller.verify (c : Controller) (message : Bytes) (signature : Sig) :
    Except Error Bool :=
  let message_hash := derive message
  match c.get_vc_state message_hash with
  | .notIssued => .error (.generic "Not yet issued")
  | .issued _ => do
      let key ← c.get_pub_key message_hash
      pure (key.foldl (fun acc k => acc && pkVerify k message signature) true)
  | .revoked => .error (.generic "VC was revoked")

/-! ## Dispatcher-draft controller (`src/controller/mod.rs`) and task worker
(`src/task/mod.rs`, `src/task_manager/mod.rs`) -/

/-- `Path::join`. -/
def pathJoin (base sub : String) : String := base ++ "/" ++ sub

/-- The store directories `Controller::<K>::init(km, db_dir_path)` opens
(`src/controller/mod.rs` lines 81–85):
`tel_db_path = db_dir_path.join("./kel")` and
`kel_db_path = db_dir_path.join("./tel")` — the TEL store is opened on the
first, the KEL store on the second. -/
structure CtrlStores where
  telDbPath : String
  kelDbPath : String
  deriving DecidableEq

/-- The path computation of `Controller::init` in `src/controller/mod.rs`
(`./kel` and `./tel` normalize to the `kel` and `tel` sub-directories). -/
def controllerInitStores (dbDir : String) : CtrlStores :=
  { telDbPath := pathJoin dbDir "kel", kelDbPath := pathJoin dbDir "tel" }

/-- `HandleResult` exactly as declared in `src/task/mod.rs` lines 38–45:
note there is no `Failure` variant. -/
inductive HandleResult where
  | gotTel (b : Bytes) : HandleResult
  | gotKel (b : Bytes) : HandleResult
  | issued (b : Bytes) : HandleResult
  | revokedR : HandleResult
  | messageSigned (b : Bytes) : HandleResult
  deriving DecidableEq

/-- What becomes of one popped task's worker. -/
inductive WorkerOutcome where
  | delivered (r : HandleResult) : WorkerOutcome
  | panicked (site : String) : WorkerOutcome
  deriving DecidableEq

/-- `AddressedTask::handle_and_send` (`src/task/mod.rs` lines 33–36):
`self.sender.send(self.task.handle().unwrap()).unwrap()`.  The task handler's
result is `handleResult`; `sendOk` is false when the receiver was dropped
(`send` returns `Err`).  Both `unwrap`s panic the worker thread. -/
def handle_and_send (handleResult : Except Error HandleResult) (sendOk : Bool) :
    WorkerOutcome :=
  match handleResult with
  | .error _ => .panicked "task.handle().unwrap()"
  | .ok r => if sendOk then .delivered r else .panicked "sender.send(..).unwrap()"

/-! ## Example states

Concrete runs of the model used by witnesses, counterexamples and failing
inputs. -/

instance : Inhabited SAPrefix := ⟨⟨[]⟩⟩

instance : Inhabited Sig := ⟨⟨0, []⟩⟩

instance : Inhabited TelEvent := ⟨⟨.empty, 0, .iss .empty⟩⟩

instance : Inhabited KelEvent := ⟨⟨.empty, 0, none, .rct⟩⟩

instance : Inhabited VerifiableEvent := ⟨⟨default, ⟨0, default⟩⟩⟩

/-- A concrete KeyManager. -/
def exKm : KeyManager := ⟨100, 200⟩

/-- A concrete credential message. -/
def exMsg : Bytes := [5, 6]

/-- A freshly initialized controller (`init` with a backer list `Some([])`
and threshold 0, as the issuer test does). -/
def exInit : Controller :=
  (Controller.init exKm (some []) 0).toOption.getD default

/-- The controller after issuing `exMsg`. -/
def exIssued : Controller :=
  ((Controller.init exKm (some []) 0).bind (fun c => c.issue exMsg)).toOption.map
    (fun p => p.1) |>.getD default

/-- The signature `issue exMsg` returned. -/
def exSig : Sig :=
  ((Controller.init exKm (some []) 0).bind (fun c => c.issue exMsg)).toOption.map
    (fun p => p.2) |>.getD default

/-- The controller after issuing and then revoking `exMsg`. -/
def exRevoked : Controller :=
  ((Controller.init exKm (some []) 0).bind (fun c => c.issue exMsg)).bind
    (fun p => p.1.revoke exMsg) |>.toOption.getD default

/-- The KEL event stored at a given sn (total helper for stating
evaluations). -/
def kelEventAt (kel : List KelEvent) (p : IdentifierPrefix) (sn : Nat) : KelEvent :=
  (getEventAtSn kel p sn).getD default

/-- Is this TEL event an issuance event? -/
def isIssEvent : TelEvent → Bool
  | ⟨_, _, .iss _⟩ => true
  | _ => false

/-- Is this TEL event a revocation event? -/
def isRevEvent : TelEvent → Bool
  | ⟨_, _, .rev _ _⟩ => true
  | _ => false

/-- The prior digest a revocation event chains to. -/
def revPrior : TelEvent → Option SAPrefix
  | ⟨_, _, .rev _ pd⟩ => some pd
  | _ => none

/-- A credential message for the hand-built states. -/
def twoKeyMsg : Bytes := [5]

/-- The management inception of the hand-built states (issuer key 1). -/
def twoKeyVcp : TelEvent := eg_make_inception_event (.basic 1) false 0 []

/-- The issuance event of the hand-built states. -/
def twoKeyIss : TelEvent := ⟨.selfAddr (derive twoKeyMsg), 0, .iss twoKeyVcp.pre⟩

/-- Inception establishing TWO current keys `[1, 2]` with signing threshold
1: the key-state shape the spec's multi-sig threshold wording is about. -/
def twoKeyIcp : KelEvent :=
  ⟨.basic 1, 0, none, .icp [1, 2] (derive (encKeys [3])) 1 []⟩

/-- The interaction event anchoring `twoKeyIss`. -/
def twoKeyIxn : KelEvent :=
  ⟨.basic 1, 1, some (derive (serializeKel twoKeyIcp)),
    .ixn [Seal.event ⟨twoKeyIss.pre, 0, derive (serializeTel twoKeyIss)⟩]⟩

/-- A well-anchored controller state whose identifier state at issuance
carries the two current keys `[1, 2]` and threshold 1. -/
def twoKeyCtrl : Controller :=
  { km := ⟨1, 3⟩, kelPre := .basic 1, kel := [twoKeyIcp, twoKeyIxn],
    tel := ⟨twoKeyVcp.pre,
      [⟨twoKeyVcp, ⟨0, derive []⟩⟩,
       ⟨twoKeyIss, ⟨1, derive (serializeKel twoKeyIxn)⟩⟩]⟩ }

/-- A signature over `twoKeyMsg` valid under key 1 (and no other key). -/
def twoKeySig : Sig := ⟨1, twoKeyMsg⟩

/-- Like `twoKeyCtrl` but the inception establishes an EMPTY key list, so
`get_pub_key` resolves `[]`. -/
def emptyKeyIcp : KelEvent :=
  ⟨.basic 1, 0, none, .icp [] (derive (encKeys [3])) 1 []⟩

/-- The interaction event anchoring `twoKeyIss` over `emptyKeyIcp`. -/
def emptyKeyIxn : KelEvent :=
  ⟨.basic 1, 1, some (derive (serializeKel emptyKeyIcp)),
    .ixn [Seal.event ⟨twoKeyIss.pre, 0, derive (serializeTel twoKeyIss)⟩]⟩

/-- A well-anchored controller state whose resolved key list is empty. -/
def emptyKeyCtrl : Controller :=
  { km := ⟨1, 3⟩, kelPre := .basic 1, kel := [emptyKeyIcp, emptyKeyIxn],
    tel := ⟨twoKeyVcp.pre,
      [⟨twoKeyVcp, ⟨0, derive []⟩⟩,
       ⟨twoKeyIss, ⟨1, derive (serializeKel emptyKeyIxn)⟩⟩]⟩ }

/-! ## Helper lemmas -/

/-- A `foldl` of `&&` over a list starting from `b` is `b &&` the conjunction
of the predicate over the list — the shape of `verify`'s key check. -/
theorem foldl_and_eq_all (p : α → Bool) (xs : List α) (b : Bool) :
    xs.foldl (fun acc x => acc && p x) b = (b && xs.all p) := by
  induction xs generalizing b with
  | nil => simp
  | cons x xs ih => simp [List.all_cons, ih, Bool.and_assoc]

/-! ## Claims C3–C10 -/

deriving instance DecidableEq for Except

/-- Claim C3: `verify` returns an error (never `Ok(false)`) whenever the
credential's state is `NotIssued` or `Revoked`, for every signature, with
distinct diagnostics for the two cases; only in the `Issued` state does it
proceed and return `Ok(bool)`. -/
theorem verify_errors_on_unissued_and_revoked (c : Controller) (m : Bytes) (sig : Sig) :
    (c.get_vc_state (derive m) = .notIssued →
      c.verify m sig = .error (.generic "Not yet issued"))
  ∧ (c.get_vc_state (derive m) = .revoked →
      c.verify m sig = .error (.generic "VC was revoked"))
  ∧ Error.generic "Not yet issued" ≠ Error.generic "VC was revoked"
  ∧ (∀ b, c.verify m sig = .ok b → ∃ d, c.get_vc_state (derive m) = .issued d) := by
  refine ⟨?_, ?_, by simp, ?_⟩
  · intro h
    simp [Controller.verify, h]
  · intro h
    simp [Controller.verify, h]
  · intro b hb
    rcases hst : c.get_vc_state (derive m) with _ | d | _
    · exact absurd hb (by simp [Controller.verify, hst])
    · exact ⟨d, rfl⟩
    · exact absurd hb (by simp [Controller.verify, hst])

/-- Claim C3 witness: on a fresh controller, an unissued credential with an
arbitrary signature is rejected with the not-yet-issued diagnostic. -/
theorem verify_errors_on_unissued_and_revoked_witness :
    exInit.get_vc_state (derive [9]) = .notIssued
  ∧ exInit.verify [9] ⟨0, [9]⟩ = .error (.generic "Not yet issued") :=
  ⟨by decide, (verify_errors_on_unissued_and_revoked exInit [9] ⟨0, [9]⟩).1 (by decide)⟩

/-- Claim C10 (implicit): if `get_pub_key` resolves an empty key list for an
issued credential, `verify` returns `Ok(true)` for every signature — the key
check is a conjunction-fold starting from `true`, vacuously satisfied. -/
theorem verify_vacuously_true_on_empty_keys (c : Controller) (m : Bytes)
    (d : SAPrefix) (h1 : c.get_vc_state (derive m) = .issued d)
    (h2 : c.get_pub_key (derive m) = .ok []) (sig : Sig) :
    c.verify m sig = .ok true := by
  simp [Controller.verify, h1, h2]

/-- Claim C10 witness: the well-anchored state whose inception established no
keys verifies an arbitrary signature by a key that signed different bytes. -/
theorem verify_vacuously_true_on_empty_keys_witness :
    emptyKeyCtrl.get_vc_state (derive twoKeyMsg)
        = .issued (derive (serializeTel twoKeyIss))
  ∧ emptyKeyCtrl.get_pub_key (derive twoKeyMsg) = .ok []
  ∧ emptyKeyCtrl.verify twoKeyMsg ⟨77, [88]⟩ = .ok true :=
  ⟨by decide, by decide,
    verify_vacuously_true_on_empty_keys emptyKeyCtrl twoKeyMsg
      (derive (serializeTel twoKeyIss)) (by decide) (by decide) ⟨77, [88]⟩⟩

/-- Claim C5 counterexample: in `twoKeyCtrl` the resolved key state has
`current_keys = [1, 2]` and `threshold = 1`, and `twoKeySig` is valid under
exactly one positional key — so threshold semantics demand `Ok(true)` — yet
`verify` returns `Ok(false)`, because the code conjoins the one signature's
validity over all keys and never reads the threshold. -/
theorem verify_threshold_semantics_cex :
    getStateForSeal twoKeyCtrl.kel (.basic 1) 1 (derive (serializeKel twoKeyIxn))
      = .ok (some ⟨.basic 1, 1, [1, 2], 1, derive (encKeys [3]),
          serializeKel twoKeyIxn⟩)
  ∧ ([1, 2].filter (fun k => pkVerify k twoKeyMsg twoKeySig)).length = 1
  ∧ twoKeyCtrl.verify twoKeyMsg twoKeySig = .ok false := by
  refine ⟨by decide, by decide, by decide⟩

/-- Claim C5 as amended: in the `Issued` state, `verify` checks the one
signature argument against every resolved key and returns `Ok(true)` iff all
of them validate it (the threshold is not consulted); for a single-key state
this coincides with the claimed any-one-valid-key semantics. -/
theorem verify_requires_all_resolved_keys (c : Controller) (m : Bytes) (sig : Sig)
    (d : SAPrefix) (keys : List PubKey)
    (h1 : c.get_vc_state (derive m) = .issued d)
    (h2 : c.get_pub_key (derive m) = .ok keys) :
    c.verify m sig = .ok (keys.all (fun k => pkVerify k m sig)) := by
  simp [Controller.verify, h1, h2, foldl_and_eq_all]

/-- Claim C5 amended witness: at the two-key state the conjunction over the
keys is false, and `verify` returns exactly that. -/
theorem verify_requires_all_resolved_keys_witness :
    twoKeyCtrl.get_vc_state (derive twoKeyMsg) = .issued (derive (serializeTel twoKeyIss))
  ∧ twoKeyCtrl.get_pub_key (derive twoKeyMsg) = .ok [1, 2]
  ∧ twoKeyCtrl.verify twoKeyMsg twoKeySig
      = .ok ([1, 2].all (fun k => pkVerify k twoKeyMsg twoKeySig)) :=
  ⟨by decide, by decide,
    verify_requires_all_resolved_keys twoKeyCtrl twoKeyMsg twoKeySig
      (derive (serializeTel twoKeyIss)) [1, 2] (by decide) (by decide)⟩

/-- Claim C7: `make_revoke_event` fails with the improper-VC-state error in
`NotIssued` and `Revoked` (it reads the store and builds an event, writing
nothing); in `Issued(last)` the produced Rev event chains to `last`, which
the state fold set to the Iss event's digest. -/
theorem make_revoke_event_state_errors_and_prior (t : Tel) (h : SAPrefix) :
    (t.get_vc_state h = .notIssued →
      t.make_revoke_event h = .error (.generic "Inproper vc state"))
  ∧ (t.get_vc_state h = .revoked →
      t.make_revoke_event h = .error (.generic "Inproper vc state"))
  ∧ (∀ last ev, t.get_vc_state h = .issued last →
      t.make_revoke_event h = .ok ev → revPrior ev = some last)
  ∧ (∀ ve, telEventsFor t (.selfAddr h) = [ve] → isIssEvent ve.event = true →
      t.get_vc_state h = .issued (derive (serializeTel ve.event))) := by
  refine ⟨?_, ?_, ?_, ?_⟩
  · intro hst
    simp only [Tel.make_revoke_event, hst]
    rfl
  · intro hst
    simp only [Tel.make_revoke_event, hst]
    rfl
  · intro last ev hst hok
    simp only [Tel.make_revoke_event, hst] at hok
    rcases hm : t.get_management_tel_state with e | st <;> rw [hm] at hok
    · exact absurd hok (by simp [Bind.bind, Except.bind, Functor.map, Except.map, pure, Except.pure])
    · simp only [Bind.bind, Except.bind, Functor.map, Except.map, pure, Except.pure,
        Except.ok.injEq] at hok
      subst hok
      rfl
  · intro ve hlist hiss
    unfold Tel.get_vc_state
    rw [hlist]
    rcases ve with ⟨ev, s⟩
    rcases ev with ⟨p, sn, data⟩
    cases data <;> simp_all [isIssEvent, applyVc]

/-- Claim C7 witness: on the issued example state, revocation in the issued
state chains to the stored Iss digest, applied at the concrete store. -/
theorem make_revoke_event_state_errors_and_prior_witness :
    exIssued.tel.get_vc_state (derive exMsg)
      = .issued (derive (serializeTel ⟨.selfAddr (derive exMsg), 0,
          .iss exIssued.tel.telPre⟩))
  ∧ revPrior ((exIssued.tel.make_revoke_event (derive exMsg)).toOption.getD default)
      = some (derive (serializeTel ⟨.selfAddr (derive exMsg), 0,
          .iss exIssued.tel.telPre⟩)) :=
  ⟨by decide,
    (make_revoke_event_state_errors_and_prior exIssued.tel (derive exMsg)).2.2.1
      (derive (serializeTel ⟨.selfAddr (derive exMsg), 0, .iss exIssued.tel.telPre⟩))
      ((exIssued.tel.make_revoke_event (derive exMsg)).toOption.getD default)
      (by decide) (by decide)⟩

/-- The issuance verifiable event persisted in `exRevoked` (store index 1,
after the management inception). -/
def exIssVe : VerifiableEvent := (exRevoked.tel.db.get? 1).getD default

/-- The revocation verifiable event persisted in `exRevoked` (store
index 2). -/
def exRevVe : VerifiableEvent := (exRevoked.tel.db.get? 2).getD default

/-- Claim C4: refuted at a concrete run — `issue` builds its source-seal
digest over the unsigned `ixn.event_message`, but `revoke` digests the full
signed `ixn`, so the revocation's stored seal digest does not bind the
serialized event message of its anchoring interaction event while the
issuance's does.  (`update_backers`, line 114, shares `revoke`'s form.) -/
theorem source_seal_digest_inconsistent_at_revoke :
    isIssEvent exIssVe.event = true
  ∧ isRevEvent exRevVe.event = true
  ∧ exIssVe.sourceSeal.digest
      = derive (serializeKel (kelEventAt exRevoked.kel exRevoked.kelPre
          exIssVe.sourceSeal.sn))
  ∧ exRevVe.sourceSeal.digest
      ≠ derive (serializeKel (kelEventAt exRevoked.kel exRevoked.kelPre
          exRevVe.sourceSeal.sn))
  ∧ getStateForSeal exRevoked.kel exRevoked.kelPre exRevVe.sourceSeal.sn
      exRevVe.sourceSeal.digest
      = .error (.generic "Last event digests doesn't match") := by
  refine ⟨by decide, by decide, by decide, by decide, by decide⟩

/-- Claim C6: refuted at the code — `Controller::init` in
`src/controller/mod.rs` joins `./kel` onto the base path for the TEL store
and `./tel` for the KEL store, the swap of what the claim (and the variable
names in the source) say. -/
theorem controller_init_swaps_store_directories :
    (controllerInitStores "db").telDbPath = "db/kel"
  ∧ (controllerInitStores "db").kelDbPath = "db/tel"
  ∧ "db/kel" ≠ "db/tel" := by
  refine ⟨rfl, rfl, by decide⟩

/-- Claim C8: at a concrete state whose KEL has events only at sn 0–2,
`check_seal` at sn 7 hits `Option::unwrap` on the missing lookup — the
worker panics instead of returning the missing-event error the claim
describes. -/
theorem check_seal_panics_on_missing_event :
    (getEventAtSn exIssued.kel exIssued.kelPre 7 = none)
  ∧ KERL.check_seal exIssued.kel 7 exIssued.kelPre
      ((exIssued.tel.db.getLast?.getD default).event)
      = .error (.panicked "called Option::unwrap on a None value") := by
  refine ⟨by decide, by decide⟩

/-- Claim C9: refuted at the code — `handle_and_send` unwraps both the task
handler's result and the channel send, so a failing handler or a dropped
receiver panics the worker and nothing is sent; the `HandleResult` enum
declared in `src/task/mod.rs` has no `Failure` variant to send. -/
theorem handle_and_send_panics_on_task_error :
    handle_and_send (.error (.generic "handler failed")) true
      = .panicked "task.handle().unwrap()"
  ∧ handle_and_send (.ok .revokedR) false = .panicked "sender.send(..).unwrap()"
  ∧ (∀ r : HandleResult, handle_and_send (.error (.generic "handler failed")) true
      ≠ .delivered r) := by
  refine ⟨rfl, rfl, fun r => by simp [handle_and_send]⟩

/-! ## The anchoring invariant (claims C1 and C2) -/

/-- The event seal the anchoring protocol inserts into the interaction event
for a TEL event (`Seal::Event(EventSeal { prefix, sn, derive(serialize) })`). -/
def anchorSeal (t : TelEvent) : Seal :=
  .event ⟨t.pre, t.sn, derive (serializeTel t)⟩

/-- `ve` is anchored in `kel`: the KEL event of prefix `P` at the source
seal's sn exists, carries a seal vector, and that vector holds the event's
anchor seal. -/
def AnchorOk (kel : List KelEvent) (P : IdentifierPrefix) (ve : VerifiableEvent) : Prop :=
  ∃ e seals, getEventAtSn kel P ve.sourceSeal.sn = some e
    ∧ kelData e = some seals ∧ anchorSeal ve.event ∈ seals

/-- The state invariant every issuer-controller mutation maintains: all
persisted TEL events are anchored; the KEL holds only the controller's own
events, with sns below its length; the folded state exists and tracks the
log length, the current key and the next-key commitment of the KeyManager. -/
structure CtrlInv (c : Controller) : Prop where
  anchors : ∀ ve ∈ c.tel.db, AnchorOk c.kel c.kelPre ve
  preAll : ∀ e ∈ c.kel, e.pre = c.kelPre
  snLt : ∀ e ∈ c.kel, e.sn < c.kel.length
  state : ∃ s, computeState c.kel = some s ∧ s.sn + 1 = c.kel.length
      ∧ s.pre = c.kelPre ∧ s.currentKeys = [c.km.cur]
      ∧ s.nextDigest = derive (encKeys [c.km.nxt])
  telPreSet : c.tel.telPre ≠ .empty
  mgmt : c.tel.get_issuer = .ok c.kelPre

/-- The controller states reachable through the mutation path: `init`, then
any succeeding sequence of `issue`, `revoke`, `update_backers`, `rotate`. -/
inductive Reachable : Controller → Prop where
  | init (km : KeyManager) (bs : Option (List IdentifierPrefix)) (bt : Nat)
      (c : Controller) : Controller.init km bs bt = .ok c → Reachable c
  | issue (c c' : Controller) (m : Bytes) (sig : Sig) :
      Reachable c → c.issue m = .ok (c', sig) → Reachable c'
  | revoke (c c' : Controller) (m : Bytes) :
      Reachable c → c.revoke m = .ok c' → Reachable c'
  | backers (c c' : Controller) (ba br : List IdentifierPrefix) :
      Reachable c → c.update_backers ba br = .ok c' → Reachable c'
  | rot (c c' : Controller) : Reachable c → c.rotate = .ok c' → Reachable c'

/-- Destructuring a successful `Except` bind. -/
theorem exbind_ok {α β : Type} {x : Except Error α} {f : α → Except Error β} {b : β}
    (h : (x >>= f) = .ok b) : ∃ a, x = .ok a ∧ f a = .ok b := by
  cases x with
  | error e => exact absurd h (by simp [Bind.bind, Except.bind])
  | ok a => exact ⟨a, rfl, h⟩

/-- `takeWhile` ignores an appended element that fails the predicate. -/
theorem takeWhile_append_fails {α : Type} {p : α → Bool} {e : α}
    (xs : List α) (h : p e = false) :
    (xs ++ [e]).takeWhile p = xs.takeWhile p := by
  induction xs with
  | nil => simp [List.takeWhile, h]
  | cons x xs ih => cases hp : p x <;> simp [List.takeWhile_cons, hp, ih]

/-- A successful `find?` survives appending. -/
theorem find?_append_left {α : Type} {p : α → Bool} {xs : List α} {v : α}
    (ys : List α) (h : xs.find? p = some v) : (xs ++ ys).find? p = some v := by
  rw [List.find?_append, h]
  rfl

/-- Being anchored survives appending KEL events. -/
theorem anchorOk_append {kel : List KelEvent} {P : IdentifierPrefix}
    {ve : VerifiableEvent} (es : List KelEvent) (h : AnchorOk kel P ve) :
    AnchorOk (kel ++ es) P ve := by
  obtain ⟨e, seals, h1, h2, h3⟩ := h
  exact ⟨e, seals, find?_append_left es h1, h2, h3⟩

/-- An anchored event passes the literal `KERL::check_seal` of
`src/kerl/mod.rs` when asked with the issuer's prefix. -/
theorem check_seal_of_anchorOk {kel : List KelEvent} {P : IdentifierPrefix}
    {ve : VerifiableEvent} (h : AnchorOk kel P ve) :
    KERL.check_seal kel ve.sourceSeal.sn P ve.event = .ok true := by
  obtain ⟨e, seals, h1, h2, h3⟩ := h
  simp only [KERL.check_seal, h1, h2]
  congr 1
  rw [List.any_eq_true]
  refine ⟨anchorSeal ve.event, h3, ?_⟩
  simp [anchorSeal, SAPrefix.verify_binding, derive]

/-- An anchored event passes the spec-modelled byte-interface `check_seal`
the issuer controller calls. -/
theorem check_seal_bytes_of_anchorOk {kel : List KelEvent} {P : IdentifierPrefix}
    {ve : VerifiableEvent} (h : AnchorOk kel P ve) :
    check_seal_bytes kel P ve.sourceSeal.sn ve.event.pre (serializeTel ve.event)
      = .ok true := by
  obtain ⟨e, seals, h1, h2, h3⟩ := h
  simp only [check_seal_bytes, h1, h2]
  congr 1
  rw [List.any_eq_true]
  refine ⟨anchorSeal ve.event, h3, ?_⟩
  simp [anchorSeal, SAPrefix.verify_binding, derive]

/-- A successful `processKel` appended exactly the event message. -/
theorem processKel_ok {kel kel' : List KelEvent} {se : SignedKelEvent}
    (h : processKel kel se = .ok kel') : kel' = kel ++ [se.event_message] := by
  unfold processKel at h
  split at h
  · exact (Except.ok.injEq _ _ |>.mp h).symm
  · exact absurd h (by simp)

/-- A successful `Tel.process` appended exactly the verifiable event. -/
theorem tel_process_db {t tel' : Tel} {ve : VerifiableEvent}
    (h : t.process ve = .ok tel') : tel'.db = t.db ++ [ve] := by
  unfold Tel.process at h
  cases hv : ve.event.data <;> rw [hv] at h <;> simp only [] at h <;>
    repeat' split at h
  all_goals
    first
      | (cases h; rfl)
      | exact absurd h (by simp)

/-- A successful `KERL.make_ixn_with_seal` computed the folded state, built
the interaction event over it, and processed it. -/
theorem make_ixn_ok {kel kel' : List KelEvent} {seals : List Seal}
    {km : KeyManager} {ixn : SignedKelEvent}
    (h : KERL.make_ixn_with_seal kel seals km = .ok (ixn, kel')) :
    ∃ s, computeState kel = some s
      ∧ ixn = ⟨make_ixn_ev seals s, [km.sign (serializeKel (make_ixn_ev seals s))]⟩
      ∧ processKel kel ixn = .ok kel' := by
  unfold KERL.make_ixn_with_seal at h
  rcases hs : computeState kel with _ | s <;> rw [hs] at h
  · exact absurd h (by simp [Bind.bind, Except.bind])
  · simp only [Bind.bind, Except.bind, pure, Except.pure] at h
    obtain ⟨kel'', hk, hp⟩ := exbind_ok (by exact h)
    cases hp
    exact ⟨s, rfl, rfl, hk⟩

/-- A successful `Tel.process` of any event keeps an already-bootstrapped
management prefix. -/
theorem tel_process_telPre {t tel' : Tel} {ve : VerifiableEvent}
    (hset : t.telPre ≠ .empty) (h : t.process ve = .ok tel') :
    tel'.telPre = t.telPre := by
  have hbe : (t.telPre == IdentifierPrefix.empty) = false := by
    simp [hset]
  unfold Tel.process at h
  cases hv : ve.event.data <;> rw [hv] at h <;> simp only [hbe] at h <;>
    repeat' split at h
  all_goals
    first
      | (cases h; rfl)
      | (exfalso; simp_all)

/-- `applyMgmt` on a resolved management state never changes the issuer. -/
theorem applyMgmt_issuer (s : ManagerTelState) (ev : TelEvent) :
    ∃ s', applyMgmt (some s) ev = some s' ∧ s'.issuer = s.issuer := by
  cases hd : ev.data with
  | vcp i nb th bs => exact ⟨s, by simp [applyMgmt, hd], rfl⟩
  | vrt ba br pd =>
      exact ⟨{ s with backers := (s.backers.filter (fun b => !(br.contains b))) ++ ba,
                      sn := ev.sn, lastDigest := derive (serializeTel ev) },
        by simp [applyMgmt, hd], rfl⟩
  | iss ri => exact ⟨s, by simp [applyMgmt, hd], rfl⟩
  | rev ri pd => exact ⟨s, by simp [applyMgmt, hd], rfl⟩

/-- Appending any verifiable event to the store of a TEL whose management
state resolves keeps the management issuer (only a first `Vcp` can set it,
and `Vrt` rewrites only the backer set). -/
theorem get_issuer_append {t tel' : Tel} {ve : VerifiableEvent} {P : IdentifierPrefix}
    (hiss : t.get_issuer = .ok P) (hpre : tel'.telPre = t.telPre)
    (hdb : tel'.db = t.db ++ [ve]) : tel'.get_issuer = .ok P := by
  obtain ⟨st, hst, hPeq⟩ : ∃ st,
      ((telEventsFor t t.telPre).map (fun v => v.event)).foldl applyMgmt none = some st
        ∧ st.issuer = P := by
    unfold Tel.get_issuer Tel.get_management_tel_state at hiss
    rcases hm : ((telEventsFor t t.telPre).map (fun v => v.event)).foldl applyMgmt none
      with _ | st <;> rw [hm] at hiss
    · exact absurd hiss (by simp [Bind.bind, Except.bind])
    · exact ⟨st, hm, by simpa [Bind.bind, Except.bind, pure, Except.pure] using hiss⟩
  unfold Tel.get_issuer Tel.get_management_tel_state telEventsFor
  unfold telEventsFor at hst
  rw [hpre, hdb, List.filter_append]
  by_cases hp : (ve.event.pre == t.telPre) = true
  · rw [List.filter_cons, if_pos hp]
    simp only [List.filter_nil]
    rw [List.map_append, List.foldl_append, hst]
    simp only [List.map_cons, List.map_nil, List.foldl_cons, List.foldl_nil]
    obtain ⟨s', hs', hiss'⟩ := applyMgmt_issuer st ve.event
    rw [hs']
    simp [Bind.bind, Except.bind, pure, Except.pure, hiss', hPeq]
  · rw [List.filter_cons, if_neg hp]
    simp only [List.filter_nil, List.append_nil]
    rw [hst]
    simp [Bind.bind, Except.bind, pure, Except.pure, hPeq]

/-- The interaction event just appended for a TEL event anchors it. -/
theorem anchorOk_new {kel : List KelEvent} {P : IdentifierPrefix}
    {s : IdentifierState} (t : TelEvent) (dg : SAPrefix)
    (hsnlt : ∀ e ∈ kel, e.sn < kel.length) (hlen : s.sn + 1 = kel.length)
    (hpre : s.pre = P) :
    AnchorOk (kel ++ [make_ixn_ev [anchorSeal t] s]) P ⟨t, ⟨s.sn + 1, dg⟩⟩ := by
  refine ⟨make_ixn_ev [anchorSeal t] s, [anchorSeal t], ?_, rfl, List.mem_singleton.mpr rfl⟩
  unfold getEventAtSn
  rw [List.find?_append]
  have hnone : kel.find? (fun e =>
      e.pre == P && e.sn == (⟨t, ⟨s.sn + 1, dg⟩⟩ : VerifiableEvent).sourceSeal.sn)
      = none := by
    rw [List.find?_eq_none]
    intro e he
    have := hsnlt e he
    simp only [Bool.and_eq_true, beq_iff_eq]
    rintro ⟨-, h2⟩
    omega
  rw [hnone]
  simp [make_ixn_ev, hpre]

/-- One anchored mutation step (the common core of `incept_tel`, `issue`,
`revoke` and `update_backers`) preserves the controller invariant. -/
theorem inv_after_anchor {c : Controller} (hInv : CtrlInv c) {s : IdentifierState}
    (hs : computeState c.kel = some s) {t : TelEvent} {dg : SAPrefix}
    {sigs : List Sig} {kel' : List KelEvent} {tel' : Tel}
    (hk : processKel c.kel ⟨make_ixn_ev [anchorSeal t] s, sigs⟩ = .ok kel')
    (ht : c.tel.process ⟨t, ⟨s.sn + 1, dg⟩⟩ = .ok tel') :
    CtrlInv { c with kel := kel', tel := tel' } := by
  have hkel : kel' = c.kel ++ [make_ixn_ev [anchorSeal t] s] := by
    simpa using processKel_ok hk
  have hdb : tel'.db = c.tel.db ++ [⟨t, ⟨s.sn + 1, dg⟩⟩] := tel_process_db ht
  have htp : tel'.telPre = c.tel.telPre := tel_process_telPre hInv.telPreSet ht
  obtain ⟨s0, hs0, hlen, hpre, hkeys, hnd⟩ := hInv.state
  rw [hs] at hs0
  obtain rfl : s = s0 := Option.some.injEq _ _ |>.mp hs0
  constructor
  case anchors =>
    intro ve hve
    simp only [] at hve ⊢
    rw [hdb] at hve
    rw [hkel]
    rcases List.mem_append.mp hve with hold | hnew
    · exact anchorOk_append _ (hInv.anchors ve hold)
    · rw [List.mem_singleton.mp hnew]
      exact anchorOk_new t dg hInv.snLt hlen hpre
  case preAll =>
    intro e he
    simp only [] at he ⊢
    rw [hkel] at he
    rcases List.mem_append.mp he with hold | hnew
    · exact hInv.preAll e hold
    · rw [List.mem_singleton.mp hnew]
      exact hpre
  case snLt =>
    intro e he
    simp only [] at he ⊢
    rw [hkel] at he ⊢
    rcases List.mem_append.mp he with hold | hnew
    · have := hInv.snLt e hold
      simp only [List.length_append, List.length_singleton]
      omega
    · rw [List.mem_singleton.mp hnew]
      simp only [make_ixn_ev, List.length_append, List.length_singleton]
      omega
  case state =>
    refine ⟨{ s with sn := s.sn + 1,
                     last := serializeKel (make_ixn_ev [anchorSeal t] s) },
      ?_, ?_, hpre, hkeys, hnd⟩
    · show computeState kel' = _
      rw [hkel]
      unfold computeState
      rw [List.foldl_append, show List.foldl applyKel none c.kel = some s from hs]
      rfl
    · show s.sn + 1 + 1 = kel'.length
      rw [hkel, List.length_append, List.length_singleton]
      omega
  case telPreSet =>
    show tel'.telPre ≠ .empty
    rw [htp]
    exact hInv.telPreSet
  case mgmt =>
    show tel'.get_issuer = .ok c.kelPre
    exact get_issuer_append hInv.mgmt htp hdb

/-- `issue` preserves the controller invariant. -/
theorem inv_issue {c c' : Controller} {m : Bytes} {sig : Sig}
    (hInv : CtrlInv c) (h : c.issue m = .ok (c', sig)) : CtrlInv c' := by
  unfold Controller.issue at h
  replace h := exbind_ok h
  obtain ⟨iss, hiss, h⟩ := h
  replace h := exbind_ok h
  obtain ⟨⟨ixn, kel'⟩, hmk, h⟩ := h
  replace h := exbind_ok h
  obtain ⟨tel', htel, h⟩ := h
  obtain ⟨s, hs, rfl, hproc⟩ := make_ixn_ok hmk
  cases h
  exact inv_after_anchor hInv hs hproc htel

/-- `revoke` preserves the controller invariant. -/
theorem inv_revoke {c c' : Controller} {m : Bytes}
    (hInv : CtrlInv c) (h : c.revoke m = .ok c') : CtrlInv c' := by
  unfold Controller.revoke at h
  replace h := exbind_ok h
  obtain ⟨rev, hrev, h⟩ := h
  replace h := exbind_ok h
  obtain ⟨⟨ixn, kel'⟩, hmk, h⟩ := h
  replace h := exbind_ok h
  obtain ⟨tel', htel, h⟩ := h
  obtain ⟨s, hs, rfl, hproc⟩ := make_ixn_ok hmk
  cases h
  exact inv_after_anchor hInv hs hproc htel

/-- `update_backers` preserves the controller invariant. -/
theorem inv_backers {c c' : Controller} {ba br : List IdentifierPrefix}
    (hInv : CtrlInv c) (h : c.update_backers ba br = .ok c') : CtrlInv c' := by
  unfold Controller.update_backers at h
  replace h := exbind_ok h
  obtain ⟨rcp, hrcp, h⟩ := h
  replace h := exbind_ok h
  obtain ⟨⟨ixn, kel'⟩, hmk, h⟩ := h
  replace h := exbind_ok h
  obtain ⟨tel', htel, h⟩ := h
  obtain ⟨s, hs, rfl, hproc⟩ := make_ixn_ok hmk
  cases h
  exact inv_after_anchor hInv hs hproc htel

/-- A successful `KERL.rotate` computed the folded state, built the rotation
event over it, and processed it. -/
theorem kerl_rotate_ok {kel kel' : List KelEvent} {km : KeyManager}
    {rot : SignedKelEvent} (h : KERL.rotate kel km = .ok (rot, kel')) :
    ∃ s, computeState kel = some s
      ∧ rot = ⟨make_rot km s, [km.sign (serializeKel (make_rot km s))]⟩
      ∧ processKel kel rot = .ok kel' := by
  unfold KERL.rotate at h
  rcases hs : computeState kel with _ | s <;> rw [hs] at h
  · exact absurd h (by simp [Bind.bind, Except.bind])
  · simp only [Bind.bind, Except.bind, pure, Except.pure] at h
    obtain ⟨kel'', hk, hp⟩ := exbind_ok (by exact h)
    cases hp
    exact ⟨s, rfl, rfl, hk⟩

/-- `rotate` preserves the controller invariant (the KeyManager and the KEL
state advance together). -/
theorem inv_rotate {c c' : Controller} (hInv : CtrlInv c) (h : c.rotate = .ok c') :
    CtrlInv c' := by
  unfold Controller.rotate at h
  replace h := exbind_ok h
  obtain ⟨⟨rot, kel'⟩, hr, h⟩ := h
  obtain ⟨s, hs, rfl, hproc⟩ := kerl_rotate_ok hr
  clear hr
  cases h
  have hkel : kel' = c.kel ++ [make_rot c.km.rotate s] := by
    simpa using processKel_ok hproc
  obtain ⟨s0, hs0, hlen, hpre, hkeys, hnd⟩ := hInv.state
  rw [hs] at hs0
  obtain rfl : s = s0 := Option.some.injEq _ _ |>.mp hs0
  constructor
  case anchors =>
    intro ve hve
    show AnchorOk kel' c.kelPre ve
    rw [hkel]
    exact anchorOk_append _ (hInv.anchors ve hve)
  case preAll =>
    intro e he
    show e.pre = c.kelPre
    rw [hkel] at he
    rcases List.mem_append.mp he with hold | hnew
    · exact hInv.preAll e hold
    · rw [List.mem_singleton.mp hnew]
      exact hpre
  case snLt =>
    intro e he
    show e.sn < kel'.length
    rw [hkel] at he ⊢
    rcases List.mem_append.mp he with hold | hnew
    · have := hInv.snLt e hold
      simp only [List.length_append, List.length_singleton]
      omega
    · rw [List.mem_singleton.mp hnew]
      simp only [make_rot, List.length_append, List.length_singleton]
      omega
  case state =>
    refine ⟨{ s with sn := s.sn + 1, currentKeys := [c.km.rotate.cur], sith := 1,
                     nextDigest := derive (encKeys [c.km.rotate.nxt]),
                     last := serializeKel (make_rot c.km.rotate s) },
      ?_, ?_, hpre, rfl, rfl⟩
    · show computeState kel' = _
      rw [hkel]
      unfold computeState
      rw [List.foldl_append, show List.foldl applyKel none c.kel = some s from hs]
      rfl
    · show s.sn + 1 + 1 = kel'.length
      rw [hkel, List.length_append, List.length_singleton]
      omega
  case telPreSet =>
    exact hInv.telPreSet
  case mgmt =>
    exact hInv.mgmt

/-- Processing a management inception into a fresh TEL sets the management
prefix to the inception's. -/
theorem tel_process_vcp_telPre {t tel' : Tel} {ve : VerifiableEvent}
    {i : IdentifierPrefix} {nb : Bool} {th : Nat} {bs : List IdentifierPrefix}
    (he : t.telPre = .empty) (hd : ve.event.data = .vcp i nb th bs)
    (h : t.process ve = .ok tel') : tel'.telPre = ve.event.pre := by
  unfold Tel.process at h
  rw [hd] at h
  simp only [] at h
  split at h
  · cases h
    simp [he, hd]
  · exact absurd h (by simp)

/-- The identifier state right after the modelled inception event. -/
def icpState (km : KeyManager) : IdentifierState :=
  ⟨.basic km.cur, 0, [km.cur], 1, derive (encKeys [km.nxt]), serializeKel (make_icp km)⟩

/-- `Controller.incept_kel` on the fresh controller produces the inception
log. -/
theorem incept_kel_shape {km : KeyManager} {c1 : Controller}
    (h : Controller.incept_kel
        { km := km, kelPre := .empty, kel := [], tel := ⟨.empty, []⟩ } = .ok c1) :
    c1 = { km := km, kelPre := (make_icp km).pre, kel := [make_icp km],
           tel := ⟨.empty, []⟩ } := by
  unfold Controller.incept_kel KERL.incept at h
  simp only [Bind.bind, Except.bind, pure, Except.pure] at h
  replace h := exbind_ok (by exact h)
  obtain ⟨⟨sg, kel1, p⟩, hki, h⟩ := h
  replace hki := exbind_ok (by exact hki)
  obtain ⟨kel1', hpk, hki⟩ := hki
  have hk1 : kel1' = [make_icp km] := by
    simpa using processKel_ok hpk
  cases hki
  cases h
  rw [hk1]

/-- `init` establishes the controller invariant. -/
theorem inv_init {km : KeyManager} {bs : Option (List IdentifierPrefix)} {bt : Nat}
    {c : Controller} (h : Controller.init km bs bt = .ok c) : CtrlInv c := by
  unfold Controller.init at h
  replace h := exbind_ok h
  obtain ⟨c1, h1, h⟩ := h
  obtain rfl := incept_kel_shape h1
  clear h1
  unfold Controller.incept_tel at h
  cases bs
  all_goals
    simp only [] at h
    replace h := exbind_ok (by exact h)
    obtain ⟨st, hst, h⟩ := h
    cases hst
    replace h := exbind_ok (by exact h)
    obtain ⟨⟨ixn, kel2⟩, hmk, h⟩ := h
    obtain ⟨s2, hs2, rfl, hproc⟩ := make_ixn_ok hmk
    clear hmk
    cases hs2
    replace h := exbind_ok (by exact h)
    obtain ⟨tel', htel, h⟩ := h
    cases h
    have hk2 := processKel_ok hproc
    subst hk2
    have hdb := tel_process_db htel
    have htp := tel_process_vcp_telPre rfl rfl htel
    constructor
    case anchors =>
      intro ve hve
      simp only [] at hve
      rw [hdb] at hve
      simp only [List.nil_append, List.mem_singleton] at hve
      subst hve
      exact anchorOk_new _ _
        (by
          intro e he
          rw [List.mem_singleton.mp he]
          exact Nat.zero_lt_one)
        rfl rfl
    case preAll =>
      intro e he
      simp only [List.mem_append, List.mem_singleton] at he
      rcases he with he | he
      · rw [he]
      · rw [he]
        rfl
    case snLt =>
      intro e he
      simp only [List.mem_append, List.mem_singleton] at he
      rcases he with he | he
      · rw [he]
        exact Nat.zero_lt_two
      · rw [he]
        exact Nat.one_lt_two
    case state =>
      exact ⟨_, rfl, rfl, rfl, rfl, rfl⟩
    case telPreSet =>
      show tel'.telPre ≠ .empty
      rw [htp]
      simp [Tel.make_inception_event, eg_make_inception_event]
    case mgmt =>
      show tel'.get_issuer = .ok _
      unfold Tel.get_issuer Tel.get_management_tel_state telEventsFor
      rw [htp, hdb]
      simp [Tel.make_inception_event, eg_make_inception_event, applyMgmt,
        Bind.bind, Except.bind, pure, Except.pure]

/-- Every reachable controller state satisfies the invariant. -/
theorem inv_reachable {c : Controller} (h : Reachable c) : CtrlInv c := by
  induction h with
  | init km bs bt c hi => exact inv_init hi
  | issue c c' m sig _ hstep ih => exact inv_issue ih hstep
  | revoke c c' m _ hstep ih => exact inv_revoke ih hstep
  | backers c c' ba br _ hstep ih => exact inv_backers ih hstep
  | rot c c' _ hstep ih => exact inv_rotate ih hstep

/-- Claim C2: for every TEL event persisted through the controller's
mutation path (management-TEL inception, issuance, revocation, backer
rotation) carrying source seal `(s, d)`, the literal
`check_seal(s, issuer, event)` of `src/kerl/mod.rs` returns `Ok(true)`: the
anchoring KEL interaction event at `sn = s` contains in its `data[]` the
event seal `{event.prefix, event.sn, derive(serialize(event))}`. -/
theorem persisted_tel_events_pass_check_seal (c : Controller) (hr : Reachable c)
    (ve : VerifiableEvent) (hve : ve ∈ c.tel.db) :
    KERL.check_seal c.kel ve.sourceSeal.sn c.kelPre ve.event = .ok true :=
  check_seal_of_anchorOk ((inv_reachable hr).anchors ve hve)

set_option maxRecDepth 16000

/-- Claim C2 witness: the revocation event persisted by the concrete
init–issue–revoke run passes `check_seal` against the issuer's KEL. -/
theorem persisted_tel_events_pass_check_seal_witness :
    KERL.check_seal exRevoked.kel exRevVe.sourceSeal.sn exRevoked.kelPre exRevVe.event
      = .ok true :=
  persisted_tel_events_pass_check_seal exRevoked
    (.revoke exIssued exRevoked exMsg
      (.issue exInit exIssued exMsg exSig
        (.init exKm (some []) 0 exInit (by decide))
        (by decide))
      (by decide))
    exRevVe (by decide)

/-! ## Verification stability (claim C1) -/

/-- A resolved issuer implies a resolved management state carrying it. -/
theorem mgmt_of_issuer {t : Tel} {P : IdentifierPrefix}
    (h : t.get_issuer = .ok P) :
    ∃ st, t.get_management_tel_state = .ok st ∧ st.issuer = P := by
  unfold Tel.get_issuer at h
  rcases hm : t.get_management_tel_state with e | st <;> rw [hm] at h
  · exact absurd h (by simp [Bind.bind, Except.bind])
  · exact ⟨st, rfl, by simpa [Bind.bind, Except.bind, pure, Except.pure] using h⟩

/-- Replaying up to `sn` ignores KEL events appended past it. -/
theorem computeStateAtSn_append {kel : List KelEvent} {e : KelEvent}
    {P : IdentifierPrefix} {j : Nat} (hj : j < e.sn) :
    computeStateAtSn (kel ++ [e]) P j = computeStateAtSn kel P j := by
  unfold computeStateAtSn
  rw [List.filter_append]
  by_cases hp : (e.pre == P) = true
  · rw [show List.filter (fun x => x.pre == P) [e] = [e] by
        simp [List.filter_cons, hp]]
    rw [takeWhile_append_fails _ (by simpa using hj.not_le)]
  · rw [show List.filter (fun x => x.pre == P) [e] = [] by
        simp [List.filter_cons]
        simpa using hp]
    rw [List.append_nil]

/-- `getStateForSeal` ignores KEL events appended past its sn. -/
theorem getStateForSeal_append {kel : List KelEvent} {e : KelEvent}
    {P : IdentifierPrefix} {j : Nat} {dg : SAPrefix} (hj : j < e.sn) :
    getStateForSeal (kel ++ [e]) P j dg = getStateForSeal kel P j dg := by
  unfold getStateForSeal
  rw [computeStateAtSn_append hj]

/-- With the folded state in hand and the current key held by the
KeyManager, `make_ixn_with_seal` succeeds and appends the interaction
event. -/
theorem make_ixn_succeeds {kel : List KelEvent} {s : IdentifierState}
    {km : KeyManager} (seals : List Seal) (hs : computeState kel = some s)
    (hkeys : s.currentKeys = [km.cur]) :
    KERL.make_ixn_with_seal kel seals km
      = .ok (⟨make_ixn_ev seals s, [km.sign (serializeKel (make_ixn_ev seals s))]⟩,
             kel ++ [make_ixn_ev seals s]) := by
  have hval : validateKel kel ⟨make_ixn_ev seals s,
      [km.sign (serializeKel (make_ixn_ev seals s))]⟩ = true := by
    unfold validateKel
    rw [hs]
    simp [make_ixn_ev, KeyManager.sign, pkVerify, SAPrefix.verify_binding, derive, hkeys]
  unfold KERL.make_ixn_with_seal
  rw [hs]
  simp [processKel, hval, Bind.bind, Except.bind, pure, Except.pure]

/-- With the invariant's state facts in hand, `rotate` succeeds: the
KeyManager's advanced key matches the committed next-key digest. -/
theorem rotate_succeeds {c : Controller} {s : IdentifierState}
    (hs : computeState c.kel = some s)
    (hnd : s.nextDigest = derive (encKeys [c.km.nxt])) :
    c.rotate = .ok { c with km := c.km.rotate,
                             kel := c.kel ++ [make_rot c.km.rotate s] } := by
  have hval : validateKel c.kel ⟨make_rot c.km.rotate s,
      [(c.km.rotate).sign (serializeKel (make_rot c.km.rotate s))]⟩ = true := by
    unfold validateKel
    rw [hs]
    simp [make_rot, KeyManager.sign, KeyManager.rotate, pkVerify,
      SAPrefix.verify_binding, derive, hnd]
  unfold Controller.rotate KERL.rotate
  rw [hs]
  simp [processKel, hval, Bind.bind, Except.bind, pure, Except.pure]

/-- Everything `verify` needs to keep accepting a signature, stated so that
appending KEL events past the anchor and leaving the credential's sub-TEL
alone preserve it: the Iss event is the last stored event for the hash,
it is anchored, its seal resolves the historical identifier state `S`, and
every key of `S` validates the signature. -/
def StableVer (c : Controller) (m : Bytes) (sig : Sig) (keys : List PubKey) : Prop :=
  ∃ ve S,
    (telEventsFor c.tel (.selfAddr (derive m))).getLast? = some ve
    ∧ AnchorOk c.kel c.kelPre ve
    ∧ ve.sourceSeal.sn < c.kel.length
    ∧ c.tel.get_issuer = .ok c.kelPre
    ∧ (∃ d, c.get_vc_state (derive m) = .issued d)
    ∧ getStateForSeal c.kel c.kelPre ve.sourceSeal.sn ve.sourceSeal.digest
        = .ok (some S)
    ∧ S.currentKeys = keys
    ∧ keys.all (fun k => pkVerify k m sig) = true

/-- A stable verification state resolves exactly its key list through
`get_pub_key`. -/
theorem get_pub_key_of_stable {c : Controller} {m : Bytes} {sig : Sig}
    {keys : List PubKey} (h : StableVer c m sig keys) :
    c.get_pub_key (derive m) = .ok keys := by
  obtain ⟨ve, S, hlast, hanch, hsn, hiss, ⟨d, hvc⟩, hseal, hkeys, hall⟩ := h
  unfold Controller.get_pub_key
  rw [hlast]
  simp only [Bind.bind, Except.bind, pure, Except.pure]
  rw [check_seal_bytes_of_anchorOk hanch]
  simp only [if_true]
  rw [hiss]
  simp only []
  rw [hseal]
  simp [hkeys]

/-- A stable verification state passes `verify`. -/
theorem verify_of_stable {c : Controller} {m : Bytes} {sig : Sig}
    {keys : List PubKey} (h : StableVer c m sig keys) :
    c.verify m sig = .ok true := by
  have hpk := get_pub_key_of_stable h
  obtain ⟨ve, S, hlast, hanch, hsn, hiss, ⟨d, hvc⟩, hseal, hkeys, hall⟩ := h
  unfold Controller.verify
  simp only [hvc, Bind.bind, Except.bind, pure, Except.pure]
  rw [hpk]
  simp only []
  rw [foldl_and_eq_all, Bool.true_and, hall]

/-- One `rotate` from an invariant state succeeds and preserves both the
invariant and any stable verification state. -/
theorem rotate_step {c : Controller} {m : Bytes} {sig : Sig} {keys : List PubKey}
    (hInv : CtrlInv c) (hsv : StableVer c m sig keys) :
    ∃ c', c.rotate = .ok c' ∧ CtrlInv c' ∧ StableVer c' m sig keys := by
  obtain ⟨s, hs, hlen, hpre, hkeysInv, hnd⟩ := hInv.state
  have hrot := rotate_succeeds hs hnd
  refine ⟨_, hrot, inv_rotate hInv hrot, ?_⟩
  obtain ⟨ve, S, h1, h2, h3, h4, h5, h6, h7, h8⟩ := hsv
  refine ⟨ve, S, h1, anchorOk_append _ h2, ?_, h4, h5, ?_, h7, h8⟩
  · show ve.sourceSeal.sn < (c.kel ++ [make_rot c.km.rotate s]).length
    rw [List.length_append, List.length_singleton]
    omega
  · show getStateForSeal (c.kel ++ [make_rot c.km.rotate s]) c.kelPre
        ve.sourceSeal.sn ve.sourceSeal.digest = .ok (some S)
    rw [getStateForSeal_append (by simp only [make_rot]; omega)]
    exact h6

/-- `k` successive calls of `Controller::rotate`. -/
def rotateN : Nat → Controller → Except Error Controller
  | 0, c => .ok c
  | k + 1, c => (c.rotate).bind (rotateN k)

/-- Any number of rotations from an invariant, stable state succeeds and
stays stable. -/
theorem rotateN_step (k : Nat) {c : Controller} {m : Bytes} {sig : Sig}
    {keys : List PubKey} (hInv : CtrlInv c) (hsv : StableVer c m sig keys) :
    ∃ c', rotateN k c = .ok c' ∧ CtrlInv c' ∧ StableVer c' m sig keys := by
  induction k generalizing c with
  | zero => exact ⟨c, rfl, hInv, hsv⟩
  | succ k ih =>
      obtain ⟨c1, hr, hInv1, hsv1⟩ := rotate_step hInv hsv
      obtain ⟨c', hN, hInv', hsv'⟩ := ih hInv1 hsv1
      refine ⟨c', ?_, hInv', hsv'⟩
      show (c.rotate).bind (rotateN k) = .ok c'
      rw [hr]
      exact hN

/-- Processing an issuance event for a not-yet-issued credential into a
bootstrapped TEL succeeds and appends it. -/
theorem tel_process_iss_succeeds (t : Tel) (L : TelEvent) (ri : IdentifierPrefix)
    (hd : L.data = .iss ri) (hsn : L.sn = 0)
    (hbe : (t.telPre == IdentifierPrefix.empty) = false)
    (hst : ((telEventsFor t L.pre).map (fun v => v.event)).foldl applyVc .notIssued
        = .notIssued) (sseal : EventSourceSeal) :
    t.process ⟨L, sseal⟩ = .ok ⟨t.telPre, t.db ++ [⟨L, sseal⟩]⟩ := by
  unfold Tel.process
  simp only []
  rw [hd]
  simp only []
  rw [hst, hsn]
  simp [hbe]

/-- Resolving the state at the freshly appended interaction event's sn with
its unsigned-message digest returns the pre-append state advanced by that
event. -/
theorem getStateForSeal_new {kel : List KelEvent} {s : IdentifierState}
    {P : IdentifierPrefix} (seals : List Seal) (hs : computeState kel = some s)
    (hpreAll : ∀ e ∈ kel, e.pre = P) (hsnlt : ∀ e ∈ kel, e.sn < kel.length)
    (hlen : s.sn + 1 = kel.length) (hpre : s.pre = P) :
    getStateForSeal (kel ++ [make_ixn_ev seals s]) P (s.sn + 1)
        (derive (serializeKel (make_ixn_ev seals s)))
      = .ok (some { s with sn := s.sn + 1,
                           last := serializeKel (make_ixn_ev seals s) }) := by
  unfold getStateForSeal computeStateAtSn
  have hfl : (kel ++ [make_ixn_ev seals s]).filter (fun e => e.pre == P)
      = kel ++ [make_ixn_ev seals s] := by
    rw [List.filter_eq_self]
    intro e he
    rcases List.mem_append.mp he with h | h
    · simpa [beq_iff_eq] using hpreAll e h
    · rw [List.mem_singleton.mp h]
      simp [make_ixn_ev, beq_iff_eq, hpre]
  rw [hfl]
  have htw : (kel ++ [make_ixn_ev seals s]).takeWhile
      (fun e => decide (e.sn ≤ s.sn + 1)) = kel ++ [make_ixn_ev seals s] := by
    rw [List.takeWhile_eq_self_iff]
    intro e he
    rcases List.mem_append.mp he with h | h
    · have := hsnlt e h
      simp only [decide_eq_true_eq]
      omega
    · rw [List.mem_singleton.mp h]
      simp [make_ixn_ev]
  rw [htw, List.foldl_append, show List.foldl applyKel none kel = some s from hs]
  simp [applyKel, make_ixn_ev, SAPrefix.verify_binding, derive]

/-- From any invariant state whose credential is not yet issued, `issue`
succeeds, returns the KeyManager's signature over the message, preserves
the invariant, and establishes the stable verification state for the
current key. -/
theorem issue_succeeds {c : Controller} (hInv : CtrlInv c) (m : Bytes)
    (hvc : c.get_vc_state (derive m) = .notIssued) :
    ∃ c', c.issue m = .ok (c', c.km.sign m) ∧ CtrlInv c'
      ∧ StableVer c' m (c.km.sign m) [c.km.cur] := by
  obtain ⟨s, hs, hlen, hpre, hkeys, hnd⟩ := hInv.state
  obtain ⟨mst, hmst, hmiss⟩ := mgmt_of_issuer hInv.mgmt
  have hbe : (c.tel.telPre == IdentifierPrefix.empty) = false := by
    simp [hInv.telPreSet]
  have hissev : c.tel.make_issuance_event m
      = .ok ⟨.selfAddr (derive m), 0, .iss mst.pre⟩ := by
    unfold Tel.make_issuance_event
    rw [hmst]
    rfl
  have hisseq : c.issue m = .ok
      ({ c with
          kel := c.kel ++ [make_ixn_ev [Seal.event
            ⟨(⟨.selfAddr (derive m), 0, .iss mst.pre⟩ : TelEvent).pre,
             (⟨.selfAddr (derive m), 0, .iss mst.pre⟩ : TelEvent).sn,
             derive (serializeTel (⟨.selfAddr (derive m), 0, .iss mst.pre⟩ : TelEvent))⟩] s],
          tel := ⟨c.tel.telPre, c.tel.db ++
            [⟨⟨.selfAddr (derive m), 0, .iss mst.pre⟩,
              ⟨s.sn + 1, derive (serializeKel (make_ixn_ev [Seal.event
                ⟨(⟨.selfAddr (derive m), 0, .iss mst.pre⟩ : TelEvent).pre,
                 (⟨.selfAddr (derive m), 0, .iss mst.pre⟩ : TelEvent).sn,
                 derive (serializeTel (⟨.selfAddr (derive m), 0, .iss mst.pre⟩ : TelEvent))⟩] s))⟩⟩]⟩ },
        c.km.sign m) := by
    unfold Controller.issue
    rw [hissev]
    simp only [Bind.bind, Except.bind]
    rw [make_ixn_succeeds _ hs hkeys]
    simp only []
    rw [tel_process_iss_succeeds c.tel ⟨.selfAddr (derive m), 0, .iss mst.pre⟩ mst.pre
      rfl rfl hbe (show _ = TelState.notIssued from hvc) _]
    rfl
  refine ⟨_, hisseq, inv_issue hInv hisseq, ?_⟩
  refine ⟨⟨⟨.selfAddr (derive m), 0, .iss mst.pre⟩,
      ⟨s.sn + 1, derive (serializeKel (make_ixn_ev [Seal.event
        ⟨(⟨.selfAddr (derive m), 0, .iss mst.pre⟩ : TelEvent).pre,
         (⟨.selfAddr (derive m), 0, .iss mst.pre⟩ : TelEvent).sn,
         derive (serializeTel (⟨.selfAddr (derive m), 0, .iss mst.pre⟩ : TelEvent))⟩] s))⟩⟩,
    { s with sn := s.sn + 1,
             last := serializeKel (make_ixn_ev [Seal.event
               ⟨(⟨.selfAddr (derive m), 0, .iss mst.pre⟩ : TelEvent).pre,
                (⟨.selfAddr (derive m), 0, .iss mst.pre⟩ : TelEvent).sn,
                derive (serializeTel (⟨.selfAddr (derive m), 0, .iss mst.pre⟩ : TelEvent))⟩] s) },
    ?_, ?_, ?_, ?_, ?_, ?_, ?_, ?_⟩
  · show (List.filter (fun v => v.event.pre == IdentifierPrefix.selfAddr (derive m))
      (c.tel.db ++ [_])).getLast? = _
    rw [List.filter_append]
    simp only [List.filter_cons, List.filter_nil, beq_self_eq_true, if_true]
    exact List.getLast?_concat _
  · exact anchorOk_new _ _ hInv.snLt hlen hpre
  · show s.sn + 1 < (c.kel ++ [_]).length
    rw [List.length_append, List.length_singleton]
    omega
  · exact get_issuer_append hInv.mgmt rfl rfl
  · refine ⟨derive (serializeTel (⟨.selfAddr (derive m), 0, .iss mst.pre⟩ : TelEvent)), ?_⟩
    show (List.map (fun v => v.event) (List.filter (fun v => v.event.pre ==
        IdentifierPrefix.selfAddr (derive m)) (c.tel.db ++ [_]))).foldl
      applyVc TelState.notIssued = _
    rw [List.filter_append]
    simp only [List.filter_cons, List.filter_nil, beq_self_eq_true, if_true,
      List.map_append, List.foldl_append, List.map_cons, List.map_nil]
    rw [show (List.map (fun v => v.event) (List.filter (fun v => v.event.pre ==
        IdentifierPrefix.selfAddr (derive m)) c.tel.db)).foldl applyVc TelState.notIssued
        = TelState.notIssued from hvc]
    rfl
  · exact getStateForSeal_new _ hs hInv.preAll hInv.snLt hlen hpre
  · exact hkeys
  · simp [pkVerify, KeyManager.sign]

/-- Processing a management inception into the fresh TEL store succeeds,
bootstrapping the management prefix. -/
theorem tel_process_vcp_fresh (nb : Bool) (bt : Nat) (bl : List IdentifierPrefix)
    (P : IdentifierPrefix) (sseal : EventSourceSeal) :
    Tel.process ⟨.empty, []⟩ ⟨eg_make_inception_event P nb bt bl, sseal⟩
      = .ok ⟨(eg_make_inception_event P nb bt bl).pre,
             [⟨eg_make_inception_event P nb bt bl, sseal⟩]⟩ := by
  unfold Tel.process eg_make_inception_event
  simp [telEventsFor]

/-- The controller state `init` produces (`noBackers`/`backers` resolved
from the option as the source's match does). -/
def initResult (km : KeyManager) (nb : Bool) (bl : List IdentifierPrefix)
    (bt : Nat) : Controller :=
  let vcp := eg_make_inception_event (icpState km).pre nb bt bl
  let seals := [Seal.event ⟨vcp.pre, vcp.sn, derive (serializeTel vcp)⟩]
  let ixn := make_ixn_ev seals (icpState km)
  { km := km, kelPre := (make_icp km).pre,
    kel := [make_icp km, ixn],
    tel := ⟨vcp.pre, [⟨vcp, ⟨1, derive (serializeKel ixn)⟩⟩]⟩ }

/-- `init` always succeeds, producing `initResult`. -/
theorem init_eq (km : KeyManager) (bs : Option (List IdentifierPrefix)) (bt : Nat) :
    Controller.init km bs bt = .ok (initResult km bs.isNone (bs.getD []) bt) := by
  have hval : validateKel [] ⟨make_icp km, [km.sign (serializeKel (make_icp km))]⟩
      = true := by
    unfold validateKel
    simp [computeState, make_icp, KeyManager.sign, pkVerify]
  have hcs : computeState [make_icp km] = some (icpState km) := rfl
  have hmk : ∀ seals, KERL.make_ixn_with_seal [make_icp km] seals km
      = .ok (⟨make_ixn_ev seals (icpState km),
          [km.sign (serializeKel (make_ixn_ev seals (icpState km)))]⟩,
        [make_icp km] ++ [make_ixn_ev seals (icpState km)]) :=
    fun seals => make_ixn_succeeds seals rfl rfl
  cases bs <;>
    simp [Controller.init, Controller.incept_kel, KERL.incept, Controller.incept_tel,
      processKel, hval, hcs, hmk, tel_process_vcp_fresh, initResult,
      Tel.make_inception_event, Bind.bind, Except.bind, pure, Except.pure] <;>
    rfl

/-- No credential is issued right after `init`. -/
theorem initResult_notIssued (km : KeyManager) (nb : Bool)
    (bl : List IdentifierPrefix) (bt : Nat) (hh : SAPrefix) :
    (initResult km nb bl bt).get_vc_state hh = .notIssued := by
  unfold Controller.get_vc_state Tel.get_vc_state telEventsFor initResult
  simp only [List.filter_cons, List.filter_nil]
  split
  · simp [applyVc, eg_make_inception_event]
  · simp

/-- Claim C1: after `init` and `issue(m)` — which returns the KeyManager's
signature over `m` — `verify(m, signature)` returns `Ok(true)` both before
and after any number of `rotate()` calls, and `get_pub_key` keeps resolving
the key that was current at issuance (not the rotated ones): verification
uses the identifier state at the source seal's sn. -/
theorem issued_credential_verifies_after_rotations (km : KeyManager) (m : Bytes)
    (bs : Option (List IdentifierPrefix)) (bt : Nat) (k : Nat) :
    ∃ c0 c1 ck, Controller.init km bs bt = .ok c0
      ∧ c0.issue m = .ok (c1, km.sign m)
      ∧ rotateN k c1 = .ok ck
      ∧ c1.verify m (km.sign m) = .ok true
      ∧ ck.verify m (km.sign m) = .ok true
      ∧ ck.get_pub_key (derive m) = .ok [km.cur] := by
  have hinit := init_eq km bs bt
  have hInv0 := inv_init hinit
  obtain ⟨c1, hiss, hInv1, hsv1⟩ :=
    issue_succeeds hInv0 m (initResult_notIssued km bs.isNone (bs.getD []) bt (derive m))
  obtain ⟨ck, hrotN, hInvk, hsvk⟩ := rotateN_step k hInv1 hsv1
  exact ⟨_, c1, ck, hinit, hiss, hrotN, verify_of_stable hsv1, verify_of_stable hsvk,
    get_pub_key_of_stable hsvk⟩
